import Mathlib

/-!
Shallow embedding of the evidence-driven admission-data fusion core of the
UnivScraping repository:

* `src/execution/enrichment/boilerplate.py` — `BoilerplateRejector.clean_text`
* `src/execution/processors/validator.py` — `SemanticValidator`
* `src/execution/enrichment/matcher.py` — `RomanianProgramMatcher`,
  `DataFusionEngine` (fusion, arbitration, PDF-only synthesis)
* `src/execution/enrichment/pdf_ranker.py` — `PDFTruthRanker.evaluate_content`

Modelling conventions:

* Python floats are modelled as exact rationals (ℚ).  Every numeric constant in
  the code (0.65, 0.4, 0.6, …) is a short decimal whose IEEE rounding cannot
  flip any comparison at the scales the code compares (ratios of small
  integers), so ℚ is a faithful model of the float comparisons.
* Python strings are Lean `String`; character classification (casing, digits,
  whitespace) is modelled for ASCII plus the Romanian diacritics that the code
  handles explicitly.  `len`, indexing and slicing count codepoints, matching
  Python semantics.
* Nullable dictionary entries are modelled as `Option` fields; `d.get(k, v)`
  becomes `Option.getD` (with a dedicated definition where the distinction
  between a missing key and a stored `None` matters).
* Calls into the external `rapidfuzz` library (`token_set_ratio`,
  `partial_ratio`, both returning 0–100) are modelled as function parameters
  `ts pratio : String → String → ℚ`; the library range contract is assumed as
  an explicit hypothesis where a bound depends on it.
* The two `re.search` tests of `validate_name_hygiene` are modelled as boolean
  oracle parameters: no claim depends on the content of those regexes, only on
  the control flow around their outcomes.
* Wall-clock timestamps and the display-only `text_for_embedding` field are
  omitted from the record models; no claim mentions them.
-/

namespace UnivScraping

/-! ### Character and string primitives -/

/-- Python `str.lower` restricted to the alphabet this system sees: ASCII
letters plus the Romanian diacritics (both the comma-below and cedilla
variants) that the code maps explicitly. -/
def toLowerRo (c : Char) : Char :=
  if c = 'Ş' then 'ş' else if c = 'Ș' then 'ș'
  else if c = 'Ţ' then 'ţ' else if c = 'Ț' then 'ț'
  else if c = 'Ă' then 'ă' else if c = 'Â' then 'â' else if c = 'Î' then 'î'
  else c.toLower

/-- Cased-uppercase test backing the `str.istitle` model (ASCII + Romanian). -/
def isUpperRo (c : Char) : Bool :=
  c.isUpper || c = 'Ş' || c = 'Ș' || c = 'Ţ' || c = 'Ț' || c = 'Ă' || c = 'Â' || c = 'Î'

/-- Cased-lowercase test backing the `str.istitle` model (ASCII + Romanian). -/
def isLowerRo (c : Char) : Bool :=
  c.isLower || c = 'ş' || c = 'ș' || c = 'ţ' || c = 'ț' || c = 'ă' || c = 'â' || c = 'î'

/-- The diacritics replacement chain `.replace("ş","s")…replace("î","i")`
shared by `SemanticValidator._normalize_text` and `_romanian_normalize`. -/
def foldDiacritic (c : Char) : Char :=
  if c = 'ş' ∨ c = 'ș' then 's'
  else if c = 'ţ' ∨ c = 'ț' then 't'
  else if c = 'ă' ∨ c = 'â' then 'a'
  else if c = 'î' then 'i'
  else c

/-- Models `re.sub(r"[^\w\s]", " ", text)`: word characters (alphanumeric or
underscore) and whitespace are kept, everything else becomes a space. -/
def punctToSpace (c : Char) : Char :=
  if c.isAlphanum || c = '_' || c.isWhitespace then c else ' '

/-- Python `str.lower()` over a whole string. -/
def strLower (s : String) : String := ⟨s.data.map toLowerRo⟩

/-- Python `str.strip()` on a character list. -/
def trimChars (l : List Char) : List Char :=
  ((l.dropWhile Char.isWhitespace).reverse.dropWhile Char.isWhitespace).reverse

/-- Worker for `tokenizeChars`: accumulates the current (reversed) token. -/
def tokenizeAux : List Char → List Char → List (List Char)
  | [], acc => if acc.isEmpty then [] else [acc.reverse]
  | c :: rest, acc =>
    if c.isWhitespace then
      (if acc.isEmpty then tokenizeAux rest [] else acc.reverse :: tokenizeAux rest [])
    else tokenizeAux rest (c :: acc)

/-- Python `str.split()` with no argument: split on whitespace runs, producing
no empty tokens. -/
def tokenizeChars (l : List Char) : List (List Char) := tokenizeAux l []

/-- Substring test on character lists (the Python `in` operator on strings). -/
def isSubChars (pat : List Char) : List Char → Bool
  | [] => pat.isEmpty
  | c :: rest => pat.isPrefixOf (c :: rest) || isSubChars pat rest

/-- Python `pat in hay` for strings. -/
def containsStr (hay pat : String) : Bool := isSubChars pat.data hay.data

/-- Split on one separator character, keeping empty pieces (the behaviour of
`str.split(sep)` for a single-character separator). -/
def splitOnChar (sep : Char) : List Char → List Char → List (List Char)
  | [], cur => [cur.reverse]
  | c :: rest, cur =>
    if c = sep then cur.reverse :: splitOnChar sep rest []
    else splitOnChar sep rest (c :: cur)

/-- Python `str.istitle()`: scans tracking whether the previous character was
cased; an uppercase character after a cased one, or a lowercase character
after an uncased one, refutes; at least one cased character is required. -/
def isTitleAux : List Char → Bool → Bool → Bool
  | [], _, found => found
  | c :: rest, prevCased, found =>
    if isUpperRo c then
      (if prevCased then false else isTitleAux rest true true)
    else if isLowerRo c then
      (if prevCased then isTitleAux rest true found else false)
    else isTitleAux rest false found

/-- Python `name.istitle()`. -/
def isTitle (s : String) : Bool := isTitleAux s.data false false

/-! ### SemanticValidator (src/execution/processors/validator.py) -/

/-- The `NEGATIVE_KEYWORDS` table of `SemanticValidator.__init__`. -/
def NEGATIVE_KEYWORDS : List String :=
  [("secretariat"), ("contact"), ("acasa"), ("home"), ("meniu"), ("search"),
   ("regulament"), ("concurs"), ("bibliotec"), ("campus"), ("cazare"),
   ("burse"), ("orar"), ("proiect"), ("partener"), ("despre"), ("istoric"),
   ("conducer"), ("departament"), ("login"), ("harta"), ("gdpr"), ("cookies"),
   ("anunt"), ("eveniment"), ("noutat"), ("presa"), ("media"), ("galerie"),
   ("admitere"), ("inscrier"), ("secretari")]

/-- The `POSITIVE_KEYWORDS` table of `SemanticValidator.__init__`. -/
def POSITIVE_KEYWORDS : List String :=
  [("inginer"), ("stiint"), ("limb"), ("literatur"), ("studi"),
   ("master"), ("licent"), ("manag"), ("drept"), ("informat"), ("tehnolog"),
   ("matemat"), ("chimi"), ("fizic"), ("biolog"), ("geografi"),
   ("istori"), ("teolog"), ("arte"), ("muzic"), ("teatr"), ("pedagog"),
   ("sport"), ("educati"), ("administra"), ("econom"), ("finant"), ("didac"),
   ("psiholog"), ("comunic"), ("sociolog"), ("arhitect"), ("construct"),
   ("electr"), ("mecanic"), ("agronom"), ("horticult"), ("silvicult"),
   ("marketing"), ("contab"), ("statistic"), ("kinetoterap"), ("farmac")]

/-- The `PROGRAM_SUFFIXES` table of `SemanticValidator.__init__`. -/
def PROGRAM_SUFFIXES : List String :=
  [("ologie"), ("istica"), ("logie"), ("grafie"), ("metrie"), ("nomic"),
   ("genie"), ("turism"), ("silvic"), ("sanitar"), ("juridic")]

/-- Models `SemanticValidator._normalize_text`: lower, strip, diacritics→ASCII,
punctuation→space. -/
def vNormalize (s : String) : List Char :=
  ((trimChars (s.data.map toLowerRo)).map foldDiacritic).map punctToSpace

/-- Models `SemanticValidator._has_keyword`: some token starts with some keyword. -/
def hasKeyword (tokens : List (List Char)) (keywords : List String) : Bool :=
  keywords.any fun kw => tokens.any fun t => kw.data.isPrefixOf t

/-- The suffix-morphology test of `validate_program_name` step 3. -/
def hasSuffixKeyword (tokens : List (List Char)) (suffixes : List String) : Bool :=
  tokens.any fun t => suffixes.any fun suf => suf.data.isSuffixOf t

/-- Verdict dictionary of `validate_program_name` (status, score, reason). -/
structure Verdict where
  status : String
  score : ℚ
  reason : String
deriving DecidableEq

/-- The hard-reject phase of `validate_program_name` (steps 1–2 of the code:
emptiness, length bounds, digit ratio, character diversity), returning the
early FAIL verdict when one fires. -/
def vpnHardReject (name : String) : Option Verdict :=
  if name.data.isEmpty then some ⟨("FAIL"), 0, ("Empty string")⟩
  else if name.data.length < 4 then some ⟨("FAIL"), 0, ("Too short")⟩
  else if name.data.length > 150 then some ⟨("FAIL"), 0, ("Too long")⟩
  else if (((vNormalize name).filter Char.isDigit).length : ℚ) / (name.data.length : ℚ) > 0.4
    then some ⟨("FAIL"), 10, ("High digit ratio (looks like phone/CNP)")⟩
  else if (vNormalize name).filter Char.isAlpha ≠ [] ∧
      6 ≤ ((vNormalize name).filter Char.isAlpha).length ∧
      ((vNormalize name).filter Char.isAlpha).dedup.length ≤ 2
    then some ⟨("FAIL"), 5, ("Low character diversity")⟩
  else none

/-- The first negative keyword some token starts with (the Iron Dome loop of
`validate_program_name`, step 2). -/
def negKeywordHit (tokens : List (List Char)) : Option String :=
  NEGATIVE_KEYWORDS.find? fun kw => tokens.any fun t => kw.data.isPrefixOf t

/-- The heuristic score of `validate_program_name` steps 3–4 (the value the
decision thresholds inspect). -/
def vpnScore (name : String) : ℚ :=
  let tokens := tokenizeChars (vNormalize name)
  let posScore : ℚ :=
    (if hasKeyword tokens POSITIVE_KEYWORDS then 20 else 0) +
    (if hasSuffixKeyword tokens PROGRAM_SUFFIXES then 15 else 0)
  let score0 : ℚ := 20 + posScore
  let score1 : ℚ :=
    if tokens.length = 1 ∧ score0 < 50 then score0
    else if 2 ≤ tokens.length then score0 + 10
    else score0
  if isTitle name then score1 + 10 else score1

/-- The keyword check and decision of `validate_program_name` (after the hard
rejects). -/
def vpnDecision (name : String) : Verdict :=
  match negKeywordHit (tokenizeChars (vNormalize name)) with
  | some kw => ⟨("FAIL"), 0, ("Negative keyword: ") ++ kw⟩
  | none =>
    if 45 ≤ vpnScore name then ⟨("PASS"), vpnScore name, ("Good score")⟩
    else if 30 ≤ vpnScore name then ⟨("QUARANTINE"), vpnScore name, ("Low confidence")⟩
    else ⟨("FAIL"), vpnScore name, ("Low score")⟩

/-- Models `SemanticValidator.validate_program_name`: the hard rejects short-circuit,
otherwise the keyword scoring decides. -/
def validateProgramName (name : String) : Verdict :=
  match vpnHardReject name with
  | some v => v
  | none => vpnDecision name

/-- Status/reason pair returned by the row-level checks (those dictionaries
carry no score key; `validate_row` forwards only status and reason). -/
structure RowVerdict where
  status : String
  reason : String
deriving DecidableEq

/-- One entry of `row["evidence"]["spots"]` as read by
`validate_spots_evidence` (each key read through `.get` with default). -/
structure SpotsEv where
  match_score : Option ℚ
  score : Option ℚ
  vbudget : Option Int
  vtax : Option Int
deriving DecidableEq

/-- Row dictionary as read by `SemanticValidator.validate_row` and its
sub-checks. -/
structure VRow where
  name : Option String
  program_id : Option String
  admission_year : Option Int
  spots_budget : Option Int
  spots_tax : Option Int
  evidence_spots : List SpotsEv
  source_type : Option String
  accuracy_confidence : Option ℚ
deriving DecidableEq

/-- Python falsiness of `row.get("program_id")`: missing or empty string. -/
def falsyStr : Option String → Bool
  | none => true
  | some s => s.data.isEmpty

/-- Python falsiness of `row.get("admission_year")`: missing or zero. -/
def falsyInt : Option Int → Bool
  | none => true
  | some n => n == 0

/-- Models `SemanticValidator.validate_name_hygiene`.  The two `re.search` pattern
tests are supplied as boolean oracles `hasCount`/`hasNoise`; only the
branching around them is claimed anywhere. -/
def validateNameHygiene (hasCount hasNoise : String → Bool) (row : VRow) : RowVerdict :=
  match row.name with
  | none => ⟨("FAIL"), ("Missing name")⟩
  | some n =>
    if n.data.isEmpty then ⟨("FAIL"), ("Missing name")⟩
    else if hasNoise n then ⟨("REVIEW"), ("Name contains UI noise")⟩
    else if hasCount n then ⟨("REVIEW"), ("Name contains embedded counts")⟩
    else ⟨("PASS"), ("Clean name")⟩

/-- Support condition one evidence entry gives a row in
`validate_spots_evidence` (thresholds 0.75 / 20, value present for one of the
non-null seat fields). -/
def evidenceSupports (row : VRow) (e : SpotsEv) : Prop :=
  0.75 ≤ e.match_score.getD 0 ∧ 20 ≤ e.score.getD 0 ∧
  ((row.spots_budget ≠ none ∧ e.vbudget ≠ none) ∨ (row.spots_tax ≠ none ∧ e.vtax ≠ none))

instance (row : VRow) (e : SpotsEv) : Decidable (evidenceSupports row e) := by
  unfold evidenceSupports; infer_instance

/-- The high-confidence structured-table fallback of `validate_spots_evidence`. -/
def htmlTableSupports (row : VRow) : Prop :=
  row.source_type = some ("html_table_parsed") ∧ 0.8 ≤ row.accuracy_confidence.getD 0

instance (row : VRow) : Decidable (htmlTableSupports row) := by
  unfold htmlTableSupports; infer_instance

/-- Models `SemanticValidator.validate_spots_evidence`. -/
def validateSpotsEvidence (row : VRow) : RowVerdict :=
  if row.spots_budget = none ∧ row.spots_tax = none then
    ⟨("PASS"), ("No numeric spots to validate")⟩
  else if (∃ e ∈ row.evidence_spots, evidenceSupports row e) ∨ htmlTableSupports row then
    ⟨("PASS"), ("Verified spots")⟩
  else ⟨("REJECT"), ("Spots unverified by high-quality evidence")⟩

/-- Models `SemanticValidator.validate_identifiers`. -/
def validateIdentifiers (row : VRow) : RowVerdict :=
  if falsyStr row.program_id then ⟨("REJECT"), ("Missing program_id")⟩
  else if falsyInt row.admission_year then ⟨("REJECT"), ("Missing admission_year")⟩
  else ⟨("PASS"), ("Identifiers present")⟩

/-- Models `SemanticValidator.validate_row`: name check, hygiene, identifiers
(softened to REVIEW), spots evidence. -/
def validateRow (hasCount hasNoise : String → Bool) (row : VRow) : RowVerdict :=
  let nameRes := validateProgramName (row.name.getD (""))
  if nameRes.status = ("FAIL") then ⟨nameRes.status, nameRes.reason⟩
  else
  let hygieneRes := validateNameHygiene hasCount hasNoise row
  if hygieneRes.status = ("FAIL") ∨ hygieneRes.status = ("REJECT") then hygieneRes
  else
  let idRes := validateIdentifiers row
  if idRes.status = ("REJECT") then ⟨("REVIEW"), idRes.reason⟩
  else
  let spotsRes := validateSpotsEvidence row
  if spotsRes.status = ("REJECT") then spotsRes
  else ⟨("PASS"), ("All checks passed")⟩

/-! ### RomanianProgramMatcher (src/execution/enrichment/matcher.py) -/

/-- Tokens of `_romanian_normalize` before rejoining: lower, diacritics→ASCII,
punctuation→space, split on whitespace. -/
def mNormalizeChars (l : List Char) : List (List Char) :=
  tokenizeChars (((l.map toLowerRo).map foldDiacritic).map punctToSpace)

/-- Models `RomanianProgramMatcher._romanian_normalize` (identical to
`DataFusionEngine._romanian_normalize`): normalize and rejoin with single
spaces. -/
def mNormalize (s : String) : String :=
  if s.data.isEmpty then ("")
  else String.intercalate (" ") ((mNormalizeChars s.data).map fun t => ⟨t⟩)

/-- One whole-token abbreviation substitution of `_expand_abbreviations`
(the seven patterns in dictionary order; at most one can match a token). -/
def expandTok (t : String) : String :=
  if t = ("calc") then ("calculatoare")
  else if t = ("eng") then ("engleza")
  else if t = ("ing") then ("inginerie")
  else if t = ("auto") then ("automatica")
  else if t = ("inf") then ("informatica")
  else if t = ("mas") then ("master")
  else if t = ("lic") then ("licenta")
  else t

/-- Models `RomanianProgramMatcher._expand_abbreviations`: seven
`re.sub(r"\bKEY\b", VALUE, …)` passes.  On the strings it is applied to
(outputs of `_romanian_normalize`: lowercase word tokens separated by single
spaces) the word-boundary substitutions are exactly a per-token map, and no
replacement text equals a later pattern token. -/
def expandAbbrev (s : String) : String :=
  String.intercalate (" ")
    ((splitOnChar ' ' s.data []).map fun t => expandTok (⟨t⟩ : String))

/-- An HTML-sourced program dictionary as read by the matcher
(`.get("name","")`, `.get("level")`, `.get("domain")`). -/
structure HtmlProg where
  name : String
  level : Option String
  domain : Option String
deriving DecidableEq

/-- One PDF-extracted row as produced by `PDFParser.extract_spots`: the parser
always stores `program_name`, `spots_budget`, `spots_tax`, `level` and
`raw_row` (level is `None` when no level text was detected); the `page` key is
present only for text-strategy rows. -/
structure PdfRow where
  program_name : String
  level : Option String
  domain : Option String
  spots_budget : Option Int
  spots_tax : Option Int
  page : Option Nat
  raw_row : String
deriving DecidableEq

/-- Models `RomanianProgramMatcher._calculate_match_score`.  The rapidfuzz scorers
`fuzz.token_set_ratio` and `fuzz.partial_ratio` (0–100 valued) enter as the
parameters `ts` and `pratio`. -/
def calcMatchScore (ts pratio : String → String → ℚ) (html : HtmlProg) (row : PdfRow) : ℚ :=
  let htmlLevel := strLower (html.level.getD (""))
  let pdfLevel := strLower (row.level.getD (""))
  let isHtmlLic := containsStr htmlLevel ("licenta") || containsStr htmlLevel ("licență")
  let isHtmlMas := containsStr htmlLevel ("master")
  let isPdfLic := containsStr pdfLevel ("licenta") || containsStr pdfLevel ("licență")
  let isPdfMas := containsStr pdfLevel ("master")
  if pdfLevel ≠ ("") ∧ ((isHtmlLic ∧ isPdfMas) ∨ (isHtmlMas ∧ isPdfLic)) then 0
  else
    let htmlNorm := expandAbbrev (mNormalize html.name)
    let pdfNorm := expandAbbrev (mNormalize row.program_name)
    let nameScore := max (ts htmlNorm pdfNorm / 100) (pratio htmlNorm pdfNorm / 100)
    let levelScore : ℚ :=
      if htmlLevel ≠ ("") ∧ pdfLevel ≠ ("") then
        (if containsStr pdfLevel htmlLevel || containsStr htmlLevel pdfLevel then 1 else 0)
      else if htmlLevel = ("") ∧ pdfLevel = ("") then 0.5
      else 0
    let htmlDomain := strLower (html.domain.getD (""))
    let pdfDomain := strLower (row.domain.getD (""))
    let domainScore : ℚ :=
      if htmlDomain ≠ ("") ∧ pdfDomain ≠ ("") ∧ pratio htmlDomain pdfDomain > 80 then 1 else 0
    if nameScore < 0.3 then 0
    else min (nameScore * 0.5 + levelScore * 0.3 + domainScore * 0.2) 1

/-- Match-result dictionary of `_find_best_match`. -/
structure MatchResult where
  program : HtmlProg
  matched : Option PdfRow
  score : ℚ
  status : String
deriving DecidableEq

/-- The `candidates` list of `_find_best_match`: scored rows above the 0.01
floor, in input order. -/
def candidateList (ts pratio : String → String → ℚ) (html : HtmlProg)
    (rows : List PdfRow) : List (ℚ × PdfRow) :=
  rows.filterMap fun r =>
    if calcMatchScore ts pratio html r > 0.01
    then some (calcMatchScore ts pratio html r, r) else none

/-- Descending-by-score order used by `candidates.sort(key=…, reverse=True)`.
Python sorting is stable, as is `List.insertionSort`, and a stable sort under a
total preorder has a unique output, so the two agree. -/
def candDesc : (ℚ × PdfRow) → (ℚ × PdfRow) → Prop := fun a b => b.1 ≤ a.1

instance : DecidableRel candDesc := fun a b => inferInstanceAs (Decidable (b.1 ≤ a.1))

instance : IsTotal (ℚ × PdfRow) candDesc := ⟨fun a b => le_total b.1 a.1⟩

instance : IsTrans (ℚ × PdfRow) candDesc := ⟨fun _ _ _ h1 h2 => le_trans h2 h1⟩

/-- The sorted candidate list of `_find_best_match`. -/
def sortedCandidates (ts pratio : String → String → ℚ) (html : HtmlProg)
    (rows : List PdfRow) : List (ℚ × PdfRow) :=
  List.insertionSort candDesc (candidateList ts pratio html rows)

/-- Models `RomanianProgramMatcher._find_best_match`. -/
def findBestMatch (ts pratio : String → String → ℚ) (html : HtmlProg)
    (rows : List PdfRow) : MatchResult :=
  match sortedCandidates ts pratio html rows with
  | [] => ⟨html, none, 0, ("no_match")⟩
  | best :: rest =>
    let st1 := match rest with
      | [] => ("match")
      | second :: _ => if best.1 - second.1 < 0.15 then ("ambiguous") else ("match")
    ⟨html, some best.2, best.1, if best.1 < 0.5 then ("low_confidence") else st1⟩

/-! ### DataFusionEngine: likelihood, arbitration, synthesis -/

/-- Python `round(x, 4)`.  Mathlib `round` is round-half-up while Python uses
round-half-to-even; they differ only on exact ties of the fifth decimal, which
no claim touches. -/
def round4 (x : ℚ) : ℚ := (round (x * 10000) : ℚ) / 10000

/-- Models `DataFusionEngine._calculate_likelihood`. -/
def calcLikelihood (textMatchScore sourcePriority : ℚ) : ℚ :=
  let normMatch :=
    if textMatchScore > 1 then textMatchScore / 100 else min (max textMatchScore 0) 1
  round4 (normMatch * 0.6 + sourcePriority * 0.4)

/-- Source priority derived from the PDF content score in the matched branch
of `_fuse_data` (the thresholds 10 and 0). -/
def sourcePrio (contentScore : ℚ) : ℚ :=
  if contentScore > 10 then 0.9 else if contentScore > 0 then 0.7 else 0.5

/-- One evidence-ledger entry appended by the matched branch of `_fuse_data`
(timestamp omitted). -/
structure EvEntry where
  source : String
  source_name : String
  vbudget : Option Int
  vtax : Option Int
  score : ℚ
  match_score : ℚ
  likelihood_score : ℚ
  page : Nat
  snippet : String
deriving DecidableEq

/-- One matched candidate presented to the ARBITRATE step: the fuzzy-match
result for one PDF source (its Stage-B content score, the match score, and the
matched row data). -/
structure FuseCand where
  contentScore : ℚ
  matchScore : ℚ
  sourceUrl : String
  sourceName : String
  budget : Option Int
  tax : Option Int
  matchName : String
  status : String
  page : Option Nat
  rawRow : String
deriving DecidableEq

/-- The composite priority `this_total_score = likelihood_score_base +
score * 10` of the arbitration in `_fuse_data`. -/
def totalScore (c : FuseCand) : ℚ := c.contentScore + c.matchScore * 10

/-- The evidence entry `_fuse_data` appends for a matched candidate. -/
def evidenceEntry (c : FuseCand) : EvEntry :=
  { source := c.sourceUrl
    source_name := c.sourceName
    vbudget := c.budget
    vtax := c.tax
    score := c.contentScore
    match_score := c.matchScore
    likelihood_score := calcLikelihood c.matchScore (sourcePrio c.contentScore)
    page := c.page.getD 1
    snippet := c.rawRow.take 100 }

/-- The mutable program-record state the ARBITRATE step reads and writes:
materialized seat counts, the stored `metadata.best_source_score` (−999 models
an absent key), the metadata fields the winning source overwrites, the main
confidence, and the append-only evidence ledger. -/
structure FuseState where
  spots_budget : Option Int
  spots_tax : Option Int
  best : ℚ
  matchStatus : String
  pdfSource : String
  pdfMatchName : String
  pdfMatchScore : ℚ
  accuracy : ℚ
  evidence : List EvEntry
deriving DecidableEq

/-- The ARBITRATE step of `_fuse_data` for one match result: when the match
score clears 0.65, append an evidence entry, then overwrite the materialized
values exactly when the composite priority strictly exceeds the stored best
source score. -/
def arbitrateStep (s : FuseState) (c : FuseCand) : FuseState :=
  if 0.65 < c.matchScore then
    let s1 := { s with evidence := s.evidence ++ [evidenceEntry c] }
    if totalScore c > s.best then
      { s1 with
        spots_budget := c.budget
        spots_tax := c.tax
        best := totalScore c
        pdfMatchScore := c.matchScore
        pdfMatchName := c.matchName
        pdfSource := c.sourceUrl
        matchStatus := c.status
        accuracy := calcLikelihood c.matchScore (sourcePrio c.contentScore) }
    else s1
  else s

/-- Sequential arbitration over a list of candidates (the per-source loop of
`_enrich_faculty` driving `_fuse_data`). -/
def fuseAll (s : FuseState) (l : List FuseCand) : FuseState := l.foldl arbitrateStep s

/-- Projection of `FuseState` onto everything except the evidence ledger
(whose order necessarily records processing order). -/
structure CoreState where
  spots_budget : Option Int
  spots_tax : Option Int
  best : ℚ
  matchStatus : String
  pdfSource : String
  pdfMatchName : String
  pdfMatchScore : ℚ
  accuracy : ℚ
deriving DecidableEq

/-- Forgets the evidence ledger of a fusion state. -/
def coreOf (s : FuseState) : CoreState :=
  ⟨s.spots_budget, s.spots_tax, s.best, s.matchStatus, s.pdfSource, s.pdfMatchName,
   s.pdfMatchScore, s.accuracy⟩

/-- The core fields written by a winning candidate (independent of the
previous state: every core field is overwritten). -/
def writeCore (c : FuseCand) : CoreState :=
  ⟨c.budget, c.tax, totalScore c, c.status, c.sourceUrl, c.matchName, c.matchScore,
   calcLikelihood c.matchScore (sourcePrio c.contentScore)⟩

/-- The ARBITRATE step on core states. -/
def coreStep (z : CoreState) (c : FuseCand) : CoreState :=
  if 0.65 < c.matchScore ∧ totalScore c > z.best then writeCore c else z

/-! ### PDF-only synthesis (`_fuse_data`, V6 branch) -/

/-- Models `DataFusionEngine._normalize_level`. -/
def normalizeLevel (text : String) : String :=
  if text.data.isEmpty then ("Unknown")
  else
    let t := strLower text
    if containsStr t ("master") then ("Master")
    else if containsStr t ("licent") || containsStr t ("licenț") || containsStr t ("bachelor")
      then ("Bachelor")
    else if containsStr t ("doctor") || containsStr t ("phd") then ("PhD")
    else ("Unknown")

/-- Value of `_normalize_level(row.get("level", "Master"))` for a
parser-produced row: the parser always stores the level key (with `None` when
undetected), so `.get` returns the stored optional value and the "Master"
default never fires; `_normalize_level(None)` takes the falsy branch and
yields "Unknown". -/
def normalizeLevelOpt : Option String → String
  | none => ("Unknown")
  | some t => normalizeLevel t

/-- Models `re.search(r"202[0-9]", s)`: leftmost occurrence, as an integer. -/
def findYearAux : List Char → Option Int
  | [] => none
  | c :: rest =>
    if c = '2' then
      match rest with
      | '0' :: '2' :: d :: _ =>
        if d.isDigit then some ((2020 : Int) + (d.toNat - '0'.toNat)) else findYearAux rest
      | _ => findYearAux rest
    else findYearAux rest

/-- Models `DataFusionEngine._infer_admission_year`: URL first, then the content
text when non-empty, then the configured default. -/
def inferAdmissionYear (defaultYear : Int) (sourceUrl contentText : String) : Int :=
  match findYearAux sourceUrl.data with
  | some y => y
  | none =>
    if contentText.data.isEmpty then defaultYear
    else
      match findYearAux contentText.data with
      | some y => y
      | none => defaultYear

/-- The career-paths keyword table of `_infer_career_paths`, in dictionary
insertion order. -/
def careerPathsMap : List (String × List String) :=
  [(("agricultura"), [("Inginer Agronom"), ("Fermier"), ("Consultant Agricol")]),
   (("montanologie"), [("Inginer Montan"), ("Ranger"), ("Expert Dezvoltare Rurală")]),
   (("cadastru"), [("Inginer Cadastru"), ("Topograf"), ("Geodez")]),
   (("biologie"), [("Biolog"), ("Cercetător"), ("Profesor")]),
   (("peisagistic"), [("Arhitect Peisagist"), ("Designer Grădini")]),
   (("alimentar"), [("Inginer Industrie Alimentară"), ("Controlor Calitate")]),
   (("horticultur"), [("Horticultor"), ("Manager Fermă")]),
   (("silvicultur"), [("Inginer Silvic"), ("Pădurar")]),
   (("mediu"), [("Ecolog"), ("Inspector Protecția Mediului")]),
   (("management"), [("Manager Proiect"), ("Administrator")])]

/-- Models `DataFusionEngine._infer_career_paths`. -/
def inferCareerPaths (programName : String) : List String :=
  match careerPathsMap.find? (fun kv => containsStr (strLower programName) kv.1) with
  | some kv => kv.2
  | none => [("Specific domeniului")]

/-- Models `DataFusionEngine._generate_program_id` (Rule 1): hash of the slug and the
normalized name.  The SHA-256 hex digest enters as the parameter `sha`. -/
def generateProgramId (sha : String → String) (slug name : String) : String :=
  sha (slug ++ ("|") ++ mNormalize name)

/-- Evidence entry written by PDF-only synthesis (its dictionary has no
source_name or content-score key; timestamp omitted). -/
structure SynthEvidence where
  source : String
  vbudget : Option Int
  vtax : Option Int
  likelihood_score : ℚ
  match_score : ℚ
  page : Nat
  snippet : String
deriving DecidableEq

/-- Program record synthesized by the PDF-only branch of `_fuse_data`
(`text_for_embedding` and `scraped_at` omitted). -/
structure SynthRecord where
  uid : String
  program_id : String
  name : String
  spots_budget : Option Int
  spots_tax : Option Int
  language : String
  level : String
  source_type : String
  faculty_uid : String
  faculty_slug : String
  run_id : String
  source_url : String
  evidence_spots : List SynthEvidence
  match_status : String
  career_paths : List String
  admission_year : Int
deriving DecidableEq

/-- One iteration of the PDF-only synthesis loop of `_fuse_data`. -/
def synthesizeProgram (sha : String → String) (runId : String) (defaultYear : Int)
    (slug pdfUrl facultyUid : String) (row : PdfRow) : SynthRecord :=
  { uid := sha (slug ++ ("|") ++ row.program_name)
    program_id := generateProgramId sha slug row.program_name
    name := row.program_name
    spots_budget := row.spots_budget
    spots_tax := row.spots_tax
    language := ("ro")
    level := normalizeLevelOpt row.level
    source_type := ("pdf_only")
    faculty_uid := facultyUid
    faculty_slug := slug
    run_id := runId
    source_url := pdfUrl
    evidence_spots := [{ source := pdfUrl
                         vbudget := row.spots_budget
                         vtax := row.spots_tax
                         likelihood_score := calcLikelihood 1 0.8
                         match_score := 1
                         page := row.page.getD 1
                         snippet := row.raw_row.take 100 }]
    match_status := ("new_from_pdf")
    career_paths := inferCareerPaths row.program_name
    admission_year := inferAdmissionYear defaultYear pdfUrl ("") }

/-- The PDF-only branch of `_fuse_data`: fires exactly when the faculty has no
HTML program records and some validated rows exist, producing one record per
row. -/
def pdfOnlySynthesis (sha : String → String) (runId : String) (defaultYear : Int)
    (slug pdfUrl facultyUid : String) (programs : List HtmlProg) (rows : List PdfRow) :
    Option (List SynthRecord) :=
  if programs = [] ∧ rows ≠ [] then
    some (rows.map (synthesizeProgram sha runId defaultYear slug pdfUrl facultyUid))
  else none

/-! ### BoilerplateRejector (src/execution/enrichment/boilerplate.py) -/

/-- Stripped non-empty lines of one page:
`[l.strip() for l in p.splitlines() if l.strip()]` (after stripping and
dropping blanks, splitting on the newline character agrees with
`str.splitlines`). -/
def pageLines (p : String) : List String :=
  ((splitOnChar '\n' p.data []).map fun l => (⟨trimChars l⟩ : String)).filter fun l => l ≠ ("")

/-- How many pages contain a given stripped line.  `clean_text` extends
`all_lines` with `set(lines)` per page, so the `Counter` value of a line is the
number of pages whose deduplicated line set contains it. -/
def pagesContaining (pages : List String) (line : String) : Nat :=
  (pages.map fun p => (pageLines p).dedup).countP fun ls => line ∈ ls

/-- The boilerplate classification of `clean_text`: page frequency strictly
above the threshold ratio. -/
def isBoilerplate (θ : ℚ) (pages : List String) (line : String) : Prop :=
  (pagesContaining pages line : ℚ) / (pages.length : ℚ) > θ

instance (θ : ℚ) (pages : List String) (line : String) :
    Decidable (isBoilerplate θ pages line) := by
  unfold isBoilerplate; infer_instance

/-- The surviving lines of one page after boilerplate removal. -/
def cleanedPageLines (θ : ℚ) (pages : List String) (p : String) : List String :=
  (pageLines p).filter fun l => decide (¬ isBoilerplate θ pages l)

/-- Models `BoilerplateRejector.clean_text`: empty input yields the empty string, a
single page is returned unchanged, otherwise each page keeps its
non-boilerplate stripped lines and pages are rejoined with newlines. -/
def cleanText (θ : ℚ) (pages : List String) : String :=
  match pages with
  | [] => ("")
  | [p] => p
  | _ =>
    String.intercalate ("\n")
      (pages.map fun p => String.intercalate ("\n") (cleanedPageLines θ pages p))

/-! ### PDFTruthRanker.evaluate_content (src/execution/enrichment/pdf_ranker.py) -/

/-- One page as `pdfplumber` presents it to Stage B: its extracted text
(`page.extract_text() or ""`) and whether `page.extract_tables()` is
non-empty. -/
structure PdfPage where
  text : String
  hasTables : Bool
deriving DecidableEq

/-- An opened PDF document. -/
structure PdfDoc where
  pages : List PdfPage
deriving DecidableEq

/-- The metrics dictionary of `evaluate_content`. -/
structure ContentMetrics where
  page_count : Nat
  text_density : ℚ
  has_table : Bool
  rows_with_numbers : Nat
  detected_year : Option Int
  content_score : ℚ
deriving DecidableEq

/-- The metrics dictionary as initialized at the top of `evaluate_content`. -/
def defaultMetrics : ContentMetrics :=
  { page_count := 0
    text_density := 0
    has_table := false
    rows_with_numbers := 0
    detected_year := none
    content_score := 0 }

/-- Attempts the regex `\d+\s+(?:loc|buget|tax)` at the head of the (already
lowercased) character list, returning the remainder after the match. -/
def matchSpotAt (l : List Char) : Option (List Char) :=
  if (l.takeWhile Char.isDigit).isEmpty then none
  else
    let r1 := l.dropWhile Char.isDigit
    if (r1.takeWhile Char.isWhitespace).isEmpty then none
    else
      let r2 := r1.dropWhile Char.isWhitespace
      if ("loc").data.isPrefixOf r2 then some (r2.drop 3)
      else if ("buget").data.isPrefixOf r2 then some (r2.drop 5)
      else if ("tax").data.isPrefixOf r2 then some (r2.drop 3)
      else none

/-- Left-to-right non-overlapping scan (fuel-indexed; every step consumes at
least one character, so fuel = length suffices). -/
def countSpotAux : Nat → List Char → Nat
  | 0, _ => 0
  | _ + 1, [] => 0
  | fuel + 1, c :: rest =>
    match matchSpotAt (c :: rest) with
    | some r => 1 + countSpotAux fuel r
    | none => countSpotAux fuel rest

/-- Models the length of `re.findall` for the pattern digits, whitespace, then
"loc", "buget" or "tax" (IGNORECASE):
the quantifiers cannot backtrack across the digit/whitespace/letter class
boundaries, so maximal-munch scanning is exact. -/
def countSpotRows (s : String) : Nat :=
  let l := s.data.map toLowerRo
  countSpotAux l.length l

/-- Models `PDFTruthRanker.evaluate_content`.  The document handle is an
`Option PdfDoc`: `none` models `pdfplumber.open` raising, in which case the
`except` branch returns the initialized metrics unchanged. -/
def evaluateContent (admissionYear : Int) (doc : Option PdfDoc) : ContentMetrics :=
  match doc with
  | none => defaultMetrics
  | some pdf =>
    if pdf.pages.isEmpty then { defaultMetrics with page_count := pdf.pages.length }
    else
      let sampleText := String.join ((pdf.pages.take 2).map PdfPage.text)
      let hasTable := (pdf.pages.take 2).any PdfPage.hasTables
      let density : ℚ := (sampleText.data.length : ℚ) / (max 1 (min pdf.pages.length 2) : ℚ)
      let rows := countSpotRows sampleText
      let score : ℚ :=
        (if density < 50 then -10 else 5) +
        (if 0 < rows then 10 + (min rows 10 : ℚ) else 0) +
        (if hasTable then 5 else 0)
      { page_count := pdf.pages.length
        text_density := density
        has_table := hasTable
        rows_with_numbers := rows
        detected_year :=
          if containsStr sampleText (toString admissionYear) then some admissionYear else none
        content_score := score }

/-- The Stage-B skip test of `_enrich_faculty` (`if c_score < -5: continue`). -/
def skipsCandidate (m : ContentMetrics) : Prop := m.content_score < -5

instance (m : ContentMetrics) : Decidable (skipsCandidate m) := by
  unfold skipsCandidate; infer_instance

/-! ### Claimed-formula definitions (stated from the specification text, for
comparison against the source-derived definitions) -/

/-- The validation score as the specification states it: 20, plus 20 for a
positive-keyword token, plus 15 for a program-suffix token, plus 10 for at
least two tokens, plus 10 for a title-cased original string. -/
def claimedNameScore (name : String) : ℚ :=
  let tokens := tokenizeChars (vNormalize name)
  20 + (if hasKeyword tokens POSITIVE_KEYWORDS then 20 else 0)
     + (if hasSuffixKeyword tokens PROGRAM_SUFFIXES then 15 else 0)
     + (if 2 ≤ tokens.length then 10 else 0)
     + (if isTitle name then 10 else 0)

/-! ### Concrete inputs for witnesses and counterexamples -/

/-- A fresh program record before any arbitration (no metadata key, so the
stored best source score reads as −999). -/
def fuseInit : FuseState :=
  { spots_budget := none
    spots_tax := none
    best := -999
    matchStatus := ("unknown")
    pdfSource := ("")
    pdfMatchName := ("")
    pdfMatchScore := 0
    accuracy := 0
    evidence := [] }

/-- Candidate with composite priority 10 + 0.8·10 = 18. -/
def candTieA : FuseCand :=
  ⟨10, 0.8, ("a.pdf"), ("A"), some 100, some 10, ("Automatica"), ("match"), some 1, ("rowA")⟩

/-- Candidate with the same composite priority 11 + 0.7·10 = 18 but a distinct
(content score, match score) pair and different seat values. -/
def candTieB : FuseCand :=
  ⟨11, 0.7, ("b.pdf"), ("B"), some 200, some 20, ("Automatica"), ("match"), some 1, ("rowB")⟩

/-- Candidate with composite priority 29. -/
def candW1 : FuseCand :=
  ⟨20, 0.9, ("w1.pdf"), ("W1"), some 150, some 15, ("Drept"), ("match"), some 1, ("w1")⟩

/-- Candidate with composite priority 12. -/
def candW2 : FuseCand :=
  ⟨5, 0.7, ("w2.pdf"), ("W2"), some 100, some 11, ("Drept"), ("ambiguous"), none, ("w2")⟩

/-- Concrete candidate for the frame-property witness. -/
def candC2 : FuseCand :=
  ⟨30, 0.8, ("c.pdf"), ("C"), some 77, some 7, ("Istorie"), ("match"), none, ("rc")⟩

/-- HTML program declaring a bachelor level. -/
def htmlLic : HtmlProg := ⟨("Automatica"), some ("Licenta"), none⟩

/-- PDF row declaring a master level. -/
def rowMas : PdfRow := ⟨("Automatica"), some ("Master"), none, some 50, some 20, none, ("")⟩

/-- Token-set scorer for the matcher selection counterexample (within the
0–100 rapidfuzz range). -/
def tsCex : String → String → ℚ := fun _ p => if p = ("aa") then 60 else 50

/-- Partial-ratio scorer for the matcher selection counterexample. -/
def prCex : String → String → ℚ := fun _ _ => 0

/-- HTML program for the matcher selection counterexample. -/
def htmlCex : HtmlProg := ⟨("Programul X"), none, none⟩

/-- First PDF row (scores 0.45) for the matcher selection counterexample. -/
def rowCexA : PdfRow := ⟨("aa"), none, none, some 10, some 5, none, ("")⟩

/-- Second PDF row (scores 0.40) for the matcher selection counterexample. -/
def rowCexB : PdfRow := ⟨("bb"), none, none, some 20, some 9, none, ("")⟩

/-- Concrete stand-in hash function for closed synthesis statements. -/
def shaId : String → String := fun s => s

/-- A validated PDF row whose level was not detected (the parser stored
`None`). -/
def rowNoLevel : PdfRow :=
  ⟨("Agricultura Montana"), none, none, some 30, some 10, some 2, ("Agricultura 30 10")⟩

/-- A row with a hard-failing name but a non-null seat count and no
supporting evidence. -/
def rowBadName : VRow := ⟨some ("xy"), none, none, some 5, none, [], none, none⟩

/-- A row passing name and identifier checks, carrying a seat count backed by
no evidence. -/
def rowGoodName : VRow :=
  ⟨some ("Informatica Aplicata"), some ("pid"), some 2025, some 50, none, [], none, none⟩

/-- Ten pages: a header line on seven of them, a second line on five, plus
page-specific bodies. -/
def pagesW : List String :=
  [("HDR\nKEEP\na1"), ("HDR\nKEEP\na2"), ("HDR\nKEEP\na3"), ("HDR\nKEEP\na4"),
   ("HDR\nKEEP\na5"), ("HDR\nb6"), ("HDR\nb7"), ("c8"), ("c9"), ("c10")]

/-! ### Helper lemmas -/

lemma mem_tokenizeAux_ne_nil (l : List Char) : ∀ acc t, t ∈ tokenizeAux l acc → t ≠ [] := by
  induction l with
  | nil =>
    intro acc t h
    simp only [tokenizeAux] at h
    split at h
    · simp at h
    · rename_i ha
      simp only [List.mem_singleton] at h
      subst h
      simp only [ne_eq, List.reverse_eq_nil_iff]
      intro he
      subst he
      simp at ha
  | cons c rest ih =>
    intro acc t h
    simp only [tokenizeAux] at h
    split at h
    · split at h
      · exact ih [] t h
      · rename_i ha
        rcases List.mem_cons.mp h with h | h
        · subst h
          simp only [ne_eq, List.reverse_eq_nil_iff]
          intro he
          subst he
          simp at ha
        · exact ih [] t h
    · exact ih (c :: acc) t h

lemma tokenizeAux_sumLen (l : List Char) :
    ∀ acc, (((tokenizeAux l acc).map List.length).sum) ≤ l.length + acc.length := by
  induction l with
  | nil =>
    intro acc
    simp only [tokenizeAux]
    split
    · simp
    · simp
  | cons c rest ih =>
    intro acc
    simp only [tokenizeAux, List.length_cons]
    split
    · split
      · have := ih []
        simp only [List.length_nil, Nat.add_zero] at this
        omega
      · simp only [List.map_cons, List.sum_cons, List.length_reverse]
        have := ih []
        simp only [List.length_nil, Nat.add_zero] at this
        omega
    · have := ih (c :: acc)
      simp only [List.length_cons] at this
      omega

lemma sumLen_ge_len {ts : List (List Char)} (h : ∀ t ∈ ts, t ≠ []) :
    ts.length ≤ (ts.map List.length).sum := by
  induction ts with
  | nil => simp
  | cons a as ih =>
    simp only [List.map_cons, List.sum_cons, List.length_cons]
    have ha : a ≠ [] := h a (by simp)
    have h1 : 1 ≤ a.length := by
      cases a with
      | nil => simp at ha
      | cons x xs => simp
    have h2 := ih fun t ht => h t (by simp [ht])
    omega

lemma token_len_bound {l t : List Char} (ht : t ∈ tokenizeChars l)
    (h2 : 2 ≤ (tokenizeChars l).length) : t.length + 1 ≤ l.length := by
  obtain ⟨s1, s2, heq⟩ := List.append_of_mem ht
  have hsum := tokenizeAux_sumLen l []
  simp only [List.length_nil, Nat.add_zero] at hsum
  have hne : ∀ x ∈ tokenizeAux l [], x ≠ [] := mem_tokenizeAux_ne_nil l []
  simp only [tokenizeChars] at heq h2 hsum hne
  rw [heq] at hsum h2
  have hs1 : s1.length ≤ (s1.map List.length).sum :=
    sumLen_ge_len fun x hx => hne x (by rw [heq]; exact List.mem_append_of_mem_left _ hx)
  have hs2 : s2.length ≤ (s2.map List.length).sum :=
    sumLen_ge_len fun x hx => hne x (by rw [heq]; exact List.mem_append_of_mem_right _ (by simp [hx]))
  simp only [List.map_append, List.sum_append, List.map_cons, List.sum_cons,
    List.length_append, List.length_cons] at hsum h2
  omega

lemma trimChars_length_le (l : List Char) : (trimChars l).length ≤ l.length := by
  unfold trimChars
  have h1 : ((l.dropWhile Char.isWhitespace).reverse.dropWhile Char.isWhitespace).length
      ≤ (l.dropWhile Char.isWhitespace).reverse.length :=
    (List.dropWhile_sublist _).length_le
  have h2 : (l.dropWhile Char.isWhitespace).length ≤ l.length :=
    (List.dropWhile_sublist _).length_le
  simp only [List.length_reverse] at h1 ⊢
  omega

lemma vNormalize_length_le (s : String) : (vNormalize s).length ≤ s.data.length := by
  unfold vNormalize
  simp only [List.length_map]
  calc (trimChars (s.data.map toLowerRo)).length
      ≤ (s.data.map toLowerRo).length := trimChars_length_le _
    _ = s.data.length := List.length_map _ _

lemma positive_kw_min_len : ∀ kw ∈ POSITIVE_KEYWORDS, 4 ≤ kw.data.length := by decide

lemma length_le_of_prefixCheck : ∀ (a b : List Char), a.isPrefixOf b = true → a.length ≤ b.length := by
  intro a
  induction a with
  | nil =>
    intro b _
    simp
  | cons x xs ih =>
    intro b h
    cases b with
    | nil => simp [List.isPrefixOf] at h
    | cons y ys =>
      simp only [List.isPrefixOf, Bool.and_eq_true] at h
      have := ih ys h.2
      simp only [List.length_cons]
      omega

lemma no_len4_two_token_positive (name : String) :
    ¬ (name.data.length = 4 ∧ 2 ≤ (tokenizeChars (vNormalize name)).length ∧
       ∃ t ∈ tokenizeChars (vNormalize name), ∃ kw ∈ POSITIVE_KEYWORDS,
         kw.data.isPrefixOf t = true) := by
  rintro ⟨hlen, htok, t, ht, kw, hkw, hpre⟩
  have h4 : 4 ≤ kw.data.length := positive_kw_min_len kw hkw
  have hplen : kw.data.length ≤ t.length :=
    length_le_of_prefixCheck kw.data t hpre
  have hb := token_len_bound ht htok
  have hv := vNormalize_length_le name
  omega

lemma score1_eq (tokens : List (List Char)) (score0 : ℚ) :
    (if tokens.length = 1 ∧ score0 < 50 then score0
     else if 2 ≤ tokens.length then score0 + 10 else score0)
    = score0 + (if 2 ≤ tokens.length then 10 else 0) := by
  by_cases h1 : tokens.length = 1 ∧ score0 < 50
  · rw [if_pos h1, if_neg (by rw [h1.1]; norm_num)]
    ring
  · rw [if_neg h1]
    by_cases h2 : 2 ≤ tokens.length
    · rw [if_pos h2, if_pos h2]
    · rw [if_neg h2, if_neg h2]
      ring

lemma vpnScore_eq_claimed (name : String) : vpnScore name = claimedNameScore name := by
  simp only [vpnScore]
  rw [score1_eq]
  simp only [claimedNameScore]
  split_ifs <;> ring

/-! ### Claim theorems -/

/-- C5: for every name surviving the hard-reject checks,
`validate_program_name` scores 20, +20 for a positive-keyword token, +15 for a
program-suffix token, +10 for ≥2 tokens, +10 for a title-cased original, with
PASS at score ≥ 45, QUARANTINE at 30 ≤ score < 45, FAIL otherwise; every name
of length 3 is FAILed ("too short"); and a length-4 title-cased two-token name
with a positive-keyword first token yields PASS (vacuously: a positive keyword
is at least 4 characters long, so no 4-character string has two such tokens —
stated explicitly as the third conjunct). -/
theorem validate_program_name_spec :
    (∀ name : String,
      name.data ≠ [] →
      ¬ name.data.length < 4 →
      ¬ name.data.length > 150 →
      ¬ ((((vNormalize name).filter Char.isDigit).length : ℚ) / (name.data.length : ℚ) > 0.4) →
      ¬ ((vNormalize name).filter Char.isAlpha ≠ [] ∧
          6 ≤ ((vNormalize name).filter Char.isAlpha).length ∧
          ((vNormalize name).filter Char.isAlpha).dedup.length ≤ 2) →
      hasKeyword (tokenizeChars (vNormalize name)) NEGATIVE_KEYWORDS = false →
      (validateProgramName name).score = claimedNameScore name ∧
      (validateProgramName name).status =
        (if 45 ≤ claimedNameScore name then ("PASS")
         else if 30 ≤ claimedNameScore name then ("QUARANTINE") else ("FAIL"))) ∧
    (∀ name : String, name.data.length = 3 →
      (validateProgramName name).status = ("FAIL") ∧
      (validateProgramName name).reason = ("Too short")) ∧
    (∀ name : String,
      ¬ (name.data.length = 4 ∧ 2 ≤ (tokenizeChars (vNormalize name)).length ∧
         ∃ t ∈ tokenizeChars (vNormalize name), ∃ kw ∈ POSITIVE_KEYWORDS,
           kw.data.isPrefixOf t = true)) ∧
    (∀ name : String, ∀ t1 rest, name.data.length = 4 →
      tokenizeChars (vNormalize name) = t1 :: rest → rest.length = 1 →
      (∃ kw ∈ POSITIVE_KEYWORDS, kw.data.isPrefixOf t1 = true) →
      isTitle name = true →
      (validateProgramName name).status = ("PASS")) := by
  refine ⟨?_, ?_, no_len4_two_token_positive, ?_⟩
  · intro name h0 h1 h2 h3 h4 h5
    have h0' : ¬ (name.data.isEmpty = true) := by
      simpa [List.isEmpty_iff] using h0
    have hre : vpnHardReject name = none := by
      unfold vpnHardReject
      rw [if_neg h0', if_neg h1, if_neg h2, if_neg h3, if_neg h4]
    have hneg : negKeywordHit (tokenizeChars (vNormalize name)) = none := by
      unfold negKeywordHit
      rw [List.find?_eq_none]
      intro kw hkw hany
      have habs : hasKeyword (tokenizeChars (vNormalize name)) NEGATIVE_KEYWORDS = true := by
        unfold hasKeyword
        rw [List.any_eq_true]
        exact ⟨kw, hkw, hany⟩
      rw [h5] at habs
      exact absurd habs (by simp)
    simp only [validateProgramName, hre]
    simp only [vpnDecision, hneg]
    rw [vpnScore_eq_claimed]
    split_ifs <;> exact ⟨rfl, rfl⟩
  · intro name hn
    have h0' : ¬ (name.data.isEmpty = true) := by
      simp only [List.isEmpty_iff]
      intro he
      rw [he] at hn
      simp at hn
    have hre : vpnHardReject name = some ⟨("FAIL"), 0, ("Too short")⟩ := by
      unfold vpnHardReject
      rw [if_neg h0', if_pos (by omega : name.data.length < 4)]
    simp [validateProgramName, hre]
  · intro name t1 rest hlen htoks hrest hkw htitle
    exfalso
    refine no_len4_two_token_positive name ⟨hlen, ?_, t1, ?_, hkw⟩
    · rw [htoks]
      simp [hrest]
    · rw [htoks]
      simp

/-- Witness for C5: a real program name scores 60 (20 base + 20 keyword + 10
two tokens + 10 title case) and PASSes; a 3-character name FAILs. -/
theorem validate_program_name_spec_witness :
    (validateProgramName ("Informatica Aplicata")).score = 60 ∧
    (validateProgramName ("Informatica Aplicata")).status = ("PASS") ∧
    (validateProgramName ("abc")).status = ("FAIL") := by
  have hd : ((vNormalize ("Informatica Aplicata")).filter Char.isDigit).length = 0 := by decide
  have h1 := validate_program_name_spec.1 ("Informatica Aplicata")
    (by decide) (by decide) (by decide)
    (by rw [hd]; push_cast; rw [zero_div]; norm_num)
    (by decide) (by decide)
  have h2 := (validate_program_name_spec.2.1 ("abc") (by decide)).1
  have hc : claimedNameScore ("Informatica Aplicata") = 60 := by
    have hk : hasKeyword (tokenizeChars (vNormalize ("Informatica Aplicata")))
        POSITIVE_KEYWORDS = true := by decide
    have hs : hasSuffixKeyword (tokenizeChars (vNormalize ("Informatica Aplicata")))
        PROGRAM_SUFFIXES = false := by decide
    have hl : 2 ≤ (tokenizeChars (vNormalize ("Informatica Aplicata"))).length := by decide
    have ht : isTitle ("Informatica Aplicata") = true := by decide
    simp only [claimedNameScore, hk, hs, hl, ht, if_true, if_false, if_pos hl]
    norm_num
  rw [hc] at h1
  refine ⟨h1.1, ?_, h2⟩
  rw [h1.2]
  norm_num

/-- C3: whenever the two sides declare contradictory levels (licenta vs
master, in either direction, diacritic variant included), the match score is
exactly 0, for all names, domains and similarity oracles. -/
theorem level_mismatch_zero (ts pratio : String → String → ℚ)
    (html : HtmlProg) (row : PdfRow)
    (h : ((containsStr (strLower (html.level.getD (""))) ("licenta") = true ∨
           containsStr (strLower (html.level.getD (""))) ("licență") = true) ∧
          containsStr (strLower (row.level.getD (""))) ("master") = true)
       ∨ (containsStr (strLower (html.level.getD (""))) ("master") = true ∧
          (containsStr (strLower (row.level.getD (""))) ("licenta") = true ∨
           containsStr (strLower (row.level.getD (""))) ("licență") = true))) :
    calcMatchScore ts pratio html row = 0 := by
  have hpl : strLower (row.level.getD ("")) ≠ ("") := by
    intro he
    rcases h with ⟨_, hm⟩ | ⟨_, hl | hl⟩
    · rw [he] at hm; exact absurd hm (by decide)
    · rw [he] at hl; exact absurd hl (by decide)
    · rw [he] at hl; exact absurd hl (by decide)
  simp only [calcMatchScore]
  rw [if_pos]
  refine ⟨hpl, ?_⟩
  rcases h with ⟨hl, hm⟩ | ⟨hm, hl⟩
  · exact Or.inl ⟨by simp only [Bool.or_eq_true]; exact hl, hm⟩
  · exact Or.inr ⟨hm, by simp only [Bool.or_eq_true]; exact hl⟩

/-- Witness for C3: a concrete Licenta/Master pair scores 0 even with both
similarity oracles pinned at 100. -/
theorem level_mismatch_zero_witness :
    calcMatchScore (fun _ _ => 100) (fun _ _ => 100) htmlLic rowMas = 0 :=
  level_mismatch_zero _ _ htmlLic rowMas (Or.inl ⟨Or.inl (by decide), by decide⟩)

/-- C10: a failed Stage-B evaluation returns the initialized metrics with
content_score exactly 0, which does not trip the −5 skip floor, so the
candidate is still handed to extraction by `_enrich_faculty`. -/
theorem evaluate_content_failure_not_skipped (y : Int) :
    evaluateContent y none = defaultMetrics ∧
    (evaluateContent y none).content_score = 0 ∧
    ¬ skipsCandidate (evaluateContent y none) := by
  refine ⟨rfl, rfl, ?_⟩
  simp only [skipsCandidate, evaluateContent, defaultMetrics]
  norm_num

/-- C4: for N ≥ 2 pages, a line whose page frequency (deduplicated per page)
strictly exceeds the threshold ratio is removed from every page, a line at or
below the threshold is retained exactly where it occurred, the cleaned output
is the newline-join of the per-page surviving lines, and a single page is
returned unchanged. -/
theorem clean_text_boilerplate_spec :
    (∀ (θ : ℚ) (pages : List String) (line : String), 2 ≤ pages.length →
      ((pagesContaining pages line : ℚ) / (pages.length : ℚ) > θ →
        ∀ p ∈ pages, line ∉ cleanedPageLines θ pages p) ∧
      (¬ ((pagesContaining pages line : ℚ) / (pages.length : ℚ) > θ) →
        ∀ p ∈ pages, (line ∈ cleanedPageLines θ pages p ↔ line ∈ pageLines p))) ∧
    (∀ (θ : ℚ) (p : String), cleanText θ [p] = p) ∧
    (∀ (θ : ℚ) (pages : List String), 2 ≤ pages.length →
      cleanText θ pages =
        String.intercalate ("\n")
          (pages.map fun p => String.intercalate ("\n") (cleanedPageLines θ pages p))) := by
  refine ⟨?_, ?_, ?_⟩
  · intro θ pages line _
    constructor
    · intro h p _ hmem
      rw [cleanedPageLines, List.mem_filter] at hmem
      exact absurd h (of_decide_eq_true hmem.2)
    · intro h p _
      rw [cleanedPageLines, List.mem_filter]
      constructor
      · exact fun hm => hm.1
      · exact fun hm => ⟨hm, decide_eq_true h⟩
  · intro θ p
    rfl
  · intro θ pages hN
    match pages, hN with
    | p1 :: p2 :: rest, _ => rfl

/-- Witness for C4: on ten concrete pages with threshold 0.6, the line on
seven pages is removed everywhere and the line on five pages survives wherever
it occurred. -/
theorem clean_text_boilerplate_witness :
    (∀ p ∈ pagesW, ("HDR") ∉ cleanedPageLines 0.6 pagesW p) ∧
    (∀ p ∈ pagesW, (("KEEP") ∈ cleanedPageLines 0.6 pagesW p ↔ ("KEEP") ∈ pageLines p)) := by
  have h7 : pagesContaining pagesW ("HDR") = 7 := by decide
  have h5 : pagesContaining pagesW ("KEEP") = 5 := by decide
  have hlen : pagesW.length = 10 := by decide
  constructor
  · exact (clean_text_boilerplate_spec.1 0.6 pagesW ("HDR") (by decide)).1
      (by rw [h7, hlen]; norm_num)
  · exact (clean_text_boilerplate_spec.1 0.6 pagesW ("KEEP") (by decide)).2
      (by rw [h5, hlen]; norm_num)

/-- Counterexample to C8 as stated: a row with a hard-failing name, a non-null
seat count, and no supporting evidence makes `validate_row` return FAIL, not
the claimed REJECT. -/
theorem validate_row_counterexample :
    rowBadName.spots_budget ≠ none ∧
    ¬ ((∃ e ∈ rowBadName.evidence_spots, evidenceSupports rowBadName e) ∨
        htmlTableSupports rowBadName) ∧
    (validateRow (fun _ => false) (fun _ => false) rowBadName).status = ("FAIL") ∧
    (validateRow (fun _ => false) (fun _ => false) rowBadName).status ≠ ("REJECT") := by
  refine ⟨by decide, ?_, ?_, ?_⟩
  · rintro (⟨e, he, _⟩ | ⟨hs, _⟩)
    · simp [rowBadName] at he
    · simp [rowBadName] at hs
  · rfl
  · decide

/-- C8 (amended): provided the name of the row is not FAILed by the base name check
and both identifiers are present, `validate_row` returns REJECT (with the
machine-readable reason) exactly when a non-null seat field is backed neither
by a strong evidence entry (match ≥ 0.75, content ≥ 20, value present for a
non-null seat field) nor by a high-confidence parsed HTML table; and with both
seat fields null the spots-evidence check PASSes. -/
theorem validate_row_spots_gate (hasCount hasNoise : String → Bool) (row : VRow)
    (hname : (validateProgramName (row.name.getD (""))).status ≠ ("FAIL"))
    (hid : falsyStr row.program_id = false)
    (hyear : falsyInt row.admission_year = false) :
    (¬ (row.spots_budget = none ∧ row.spots_tax = none) →
      (((validateRow hasCount hasNoise row).status = ("REJECT")) ↔
        ¬ ((∃ e ∈ row.evidence_spots, evidenceSupports row e) ∨ htmlTableSupports row)) ∧
      ((validateRow hasCount hasNoise row).status = ("REJECT") →
        (validateRow hasCount hasNoise row).reason
          = ("Spots unverified by high-quality evidence"))) ∧
    ((row.spots_budget = none ∧ row.spots_tax = none) →
      validateSpotsEvidence row = ⟨("PASS"), ("No numeric spots to validate")⟩) := by
  have hnm : ∃ n : String, row.name = some n ∧ ¬ n.data.isEmpty = true := by
    cases hn : row.name with
    | none =>
      exfalso
      apply hname
      rw [hn]
      rfl
    | some n =>
      refine ⟨n, rfl, ?_⟩
      intro he
      apply hname
      rw [hn]
      have : n = ("") := by
        cases n with
        | mk d => simp only [List.isEmpty_iff] at he; simp [he]
      rw [this]
      rfl
  obtain ⟨n, hn, hne⟩ := hnm
  have hhy : (validateNameHygiene hasCount hasNoise row).status ≠ ("FAIL") ∧
      (validateNameHygiene hasCount hasNoise row).status ≠ ("REJECT") := by
    simp only [validateNameHygiene, hn]
    rw [if_neg hne]
    by_cases h1 : hasNoise n = true
    · rw [if_pos h1]; exact ⟨by decide, by decide⟩
    · rw [if_neg h1]
      by_cases h2 : hasCount n = true
      · rw [if_pos h2]; exact ⟨by decide, by decide⟩
      · rw [if_neg h2]; exact ⟨by decide, by decide⟩
  have hids : validateIdentifiers row = ⟨("PASS"), ("Identifiers present")⟩ := by
    rw [validateIdentifiers, if_neg (by rw [hid]; simp), if_neg (by rw [hyear]; simp)]
  constructor
  · intro hspots
    have hrow : validateRow hasCount hasNoise row =
        (if (validateSpotsEvidence row).status = ("REJECT") then validateSpotsEvidence row
         else ⟨("PASS"), ("All checks passed")⟩) := by
      rw [validateRow]
      rw [if_neg hname, if_neg (by rw [not_or] at *; exact hhy), hids]
      rw [if_neg (by decide : ¬ (RowVerdict.status ⟨("PASS"), ("Identifiers present")⟩
        = ("REJECT")))]
    by_cases hsup : (∃ e ∈ row.evidence_spots, evidenceSupports row e) ∨ htmlTableSupports row
    · have hse : validateSpotsEvidence row = ⟨("PASS"), ("Verified spots")⟩ := by
        rw [validateSpotsEvidence, if_neg hspots, if_pos hsup]
      rw [hrow, hse]
      constructor
      · rw [if_neg (by decide)]
        exact ⟨fun h => absurd h (by decide), fun h => absurd hsup h⟩
      · rw [if_neg (by decide)]
        intro h
        exact absurd h (by decide)
    · have hse : validateSpotsEvidence row
          = ⟨("REJECT"), ("Spots unverified by high-quality evidence")⟩ := by
        rw [validateSpotsEvidence, if_neg hspots, if_neg hsup]
      rw [hrow, hse]
      constructor
      · rw [if_pos (by decide)]
        exact ⟨fun _ => hsup, fun _ => by decide⟩
      · rw [if_pos (by decide)]
        exact fun _ => rfl
  · intro hnone
    rw [validateSpotsEvidence, if_pos hnone]

/-- Witness for C8: a concrete clean-named row with identifiers, a seat count
and no evidence is REJECTed with the documented reason. -/
theorem validate_row_spots_gate_witness :
    (validateRow (fun _ => false) (fun _ => false) rowGoodName).status = ("REJECT") ∧
    (validateRow (fun _ => false) (fun _ => false) rowGoodName).reason
      = ("Spots unverified by high-quality evidence") := by
  have hname : (validateProgramName (rowGoodName.name.getD (""))).status ≠ ("FAIL") := by
    have hd : ((vNormalize ("Informatica Aplicata")).filter Char.isDigit).length = 0 := by
      decide
    have h1 := (validate_program_name_spec.1 ("Informatica Aplicata")
      (by decide) (by decide) (by decide)
      (by rw [hd]; push_cast; rw [zero_div]; norm_num)
      (by decide) (by decide)).2
    have hc : claimedNameScore ("Informatica Aplicata") = 60 := by
      have hk : hasKeyword (tokenizeChars (vNormalize ("Informatica Aplicata")))
          POSITIVE_KEYWORDS = true := by decide
      have hs : hasSuffixKeyword (tokenizeChars (vNormalize ("Informatica Aplicata")))
          PROGRAM_SUFFIXES = false := by decide
      have hl : 2 ≤ (tokenizeChars (vNormalize ("Informatica Aplicata"))).length := by decide
      have ht : isTitle ("Informatica Aplicata") = true := by decide
      simp only [claimedNameScore, hk, hs, hl, ht, if_true, if_false, if_pos hl]
      norm_num
    rw [hc] at h1
    rw [show rowGoodName.name.getD ("") = ("Informatica Aplicata") from rfl, h1]
    rw [if_pos (by norm_num : (45 : ℚ) ≤ 60)]
    decide
  have h := validate_row_spots_gate (fun _ => false) (fun _ => false) rowGoodName
    hname (by decide) (by decide)
  have hsp : ¬ (rowGoodName.spots_budget = none ∧ rowGoodName.spots_tax = none) := by
    decide
  have hnosup : ¬ ((∃ e ∈ rowGoodName.evidence_spots, evidenceSupports rowGoodName e) ∨
      htmlTableSupports rowGoodName) := by
    rintro (⟨e, he, _⟩ | ⟨hs, _⟩)
    · simp [rowGoodName] at he
    · simp [rowGoodName] at hs
  have h1 := (h.1 hsp).1.mpr hnosup
  exact ⟨h1, (h.1 hsp).2 h1⟩

lemma vpnScore_bounds (name : String) : 0 ≤ vpnScore name ∧ vpnScore name ≤ 100 := by
  simp only [vpnScore]
  split_ifs <;> constructor <;> norm_num

lemma round4_mem_unit {x : ℚ} (h0 : 0 ≤ x) (h1 : x ≤ 1) :
    0 ≤ round4 x ∧ round4 x ≤ 1 := by
  unfold round4
  constructor
  · apply div_nonneg _ (by norm_num)
    have hz : (0 : ℤ) ≤ round (x * 10000) := by
      rw [round_eq]
      exact Int.le_floor.mpr (by push_cast; linarith)
    exact_mod_cast hz
  · rw [div_le_one (by norm_num)]
    have hup : round (x * 10000) ≤ round (((10000 : ℕ) : ℚ)) := by
      rw [round_eq, round_eq]
      exact Int.floor_mono (by push_cast; linarith)
    rw [round_natCast] at hup
    exact_mod_cast hup

/-- C9: the three heuristic scores stay in their documented ranges: the
validation score in [0, 100] for every input, the match score in [0, 1]
whenever the similarity oracles respect the rapidfuzz 0–100 range, and the
fused likelihood in [0, 1] for the argument shapes the call sites produce
(match score in [0, 1] with priority in [0, 1]; the transient call with
priority content_score/100 ∈ [−0.05, 0.25] only occurs with match score above
0.65). -/
theorem heuristic_score_bounds :
    (∀ name : String,
      0 ≤ (validateProgramName name).score ∧ (validateProgramName name).score ≤ 100) ∧
    (∀ (ts pratio : String → String → ℚ) (html : HtmlProg) (row : PdfRow),
      (∀ a b, 0 ≤ ts a b ∧ ts a b ≤ 100) →
      (∀ a b, 0 ≤ pratio a b ∧ pratio a b ≤ 100) →
      0 ≤ calcMatchScore ts pratio html row ∧ calcMatchScore ts pratio html row ≤ 1) ∧
    (∀ t p : ℚ,
      (0 ≤ t ∧ t ≤ 1 ∧ 0 ≤ p ∧ p ≤ 1) ∨
      (0.65 < t ∧ t ≤ 1 ∧ -(0.05 : ℚ) ≤ p ∧ p ≤ 1) →
      0 ≤ calcLikelihood t p ∧ calcLikelihood t p ≤ 1) := by
  refine ⟨?_, ?_, ?_⟩
  · intro name
    rw [validateProgramName]
    cases hr : vpnHardReject name with
    | some v =>
      have : 0 ≤ v.score ∧ v.score ≤ 100 := by
        unfold vpnHardReject at hr
        split_ifs at hr <;>
          (rw [Option.some_inj] at hr; subst hr; constructor <;> norm_num)
      exact this
    | none =>
      rw [vpnDecision]
      cases hk : negKeywordHit (tokenizeChars (vNormalize name)) with
      | some kw => constructor <;> norm_num
      | none =>
        have hb := vpnScore_bounds name
        split_ifs <;> exact hb
  · intro ts pratio html row hts hpr
    have h1 := hts (expandAbbrev (mNormalize html.name)) (expandAbbrev (mNormalize row.program_name))
    have h2 := hpr (expandAbbrev (mNormalize html.name)) (expandAbbrev (mNormalize row.program_name))
    have hmax0 : (0 : ℚ) ≤ max (ts (expandAbbrev (mNormalize html.name))
        (expandAbbrev (mNormalize row.program_name)) / 100)
        (pratio (expandAbbrev (mNormalize html.name))
          (expandAbbrev (mNormalize row.program_name)) / 100) :=
      le_max_of_le_left (by linarith)
    have hmax1 : max (ts (expandAbbrev (mNormalize html.name))
        (expandAbbrev (mNormalize row.program_name)) / 100)
        (pratio (expandAbbrev (mNormalize html.name))
          (expandAbbrev (mNormalize row.program_name)) / 100) ≤ 1 :=
      max_le (by linarith) (by linarith)
    simp only [calcMatchScore]
    split_ifs <;> refine ⟨?_, ?_⟩ <;>
      first
      | (norm_num; done)
      | (exact min_le_right _ _)
      | (refine le_min ?_ (by norm_num); linarith [hmax0])
  · intro t p h
    have ht1 : ¬ t > 1 := by rcases h with ⟨_, h2, _, _⟩ | ⟨_, h2, _, _⟩ <;> exact not_lt.mpr h2
    simp only [calcLikelihood, ht1, if_false]
    rcases h with ⟨h1, h2, h3, h4⟩ | ⟨h1, h2, h3, h4⟩
    · have hn0 : (0 : ℚ) ≤ min (max t 0) 1 := le_min (le_max_right _ _) zero_le_one
      have hn1 : min (max t 0) 1 ≤ 1 := min_le_right _ _
      exact round4_mem_unit (by linarith) (by linarith)
    · rw [max_eq_left (by linarith), min_eq_left h2]
      exact round4_mem_unit (by linarith) (by linarith)

/-- Witness for C9: the bounds instantiated at concrete inputs. -/
theorem heuristic_score_bounds_witness :
    (0 ≤ (validateProgramName ("Drept")).score ∧
      (validateProgramName ("Drept")).score ≤ 100) ∧
    (0 ≤ calcMatchScore (fun _ _ => 50) (fun _ _ => 50) htmlLic rowMas ∧
      calcMatchScore (fun _ _ => 50) (fun _ _ => 50) htmlLic rowMas ≤ 1) ∧
    (0 ≤ calcLikelihood 0.8 0.5 ∧ calcLikelihood 0.8 0.5 ≤ 1) := by
  refine ⟨heuristic_score_bounds.1 ("Drept"), ?_, ?_⟩
  · exact heuristic_score_bounds.2.1 (fun _ _ => 50) (fun _ _ => 50) htmlLic rowMas
      (fun _ _ => by norm_num) (fun _ _ => by norm_num)
  · exact heuristic_score_bounds.2.2 0.8 0.5 (Or.inl (by norm_num))

lemma coreStep_skip {c : FuseCand} (z : CoreState) (hq : ¬ 0.65 < c.matchScore) :
    coreStep z c = z := by
  unfold coreStep
  rw [if_neg (by tauto)]

lemma coreStep_win {c : FuseCand} {z : CoreState} (hq : 0.65 < c.matchScore)
    (hw : totalScore c > z.best) : coreStep z c = writeCore c := by
  unfold coreStep
  rw [if_pos ⟨hq, hw⟩]

lemma coreStep_lose {c : FuseCand} {z : CoreState} (hw : ¬ totalScore c > z.best) :
    coreStep z c = z := by
  unfold coreStep
  rw [if_neg (by tauto)]

lemma writeCore_best (c : FuseCand) : (writeCore c).best = totalScore c := rfl

lemma coreStep_comm_lt {a b : FuseCand} (hqa : 0.65 < a.matchScore)
    (hqb : 0.65 < b.matchScore) (hlt : totalScore a < totalScore b) (z : CoreState) :
    coreStep (coreStep z a) b = coreStep (coreStep z b) a := by
  by_cases hb : totalScore b > z.best
  · rw [coreStep_win hqb hb]
    rw [coreStep_lose (c := a) (z := writeCore b) (by rw [writeCore_best]; exact not_lt.mpr hlt.le)]
    by_cases ha : totalScore a > z.best
    · rw [coreStep_win hqa ha, coreStep_win hqb (by rw [writeCore_best]; exact hlt)]
    · rw [coreStep_lose ha, coreStep_win hqb hb]
  · have ha : ¬ totalScore a > z.best := by
      intro h
      exact hb (lt_trans h hlt)
    rw [coreStep_lose ha, coreStep_lose hb, coreStep_lose ha]

lemma coreStep_comm {a b : FuseCand} (hab : totalScore a ≠ totalScore b) (z : CoreState) :
    coreStep (coreStep z a) b = coreStep (coreStep z b) a := by
  by_cases hqa : 0.65 < a.matchScore
  · by_cases hqb : 0.65 < b.matchScore
    · rcases lt_or_gt_of_ne hab with h | h
      · exact coreStep_comm_lt hqa hqb h z
      · exact (coreStep_comm_lt hqb hqa h z).symm
    · rw [coreStep_skip _ hqb, coreStep_skip _ hqb]
  · rw [coreStep_skip _ hqa, coreStep_skip _ hqa]

lemma coreOf_arbitrateStep (s : FuseState) (c : FuseCand) :
    coreOf (arbitrateStep s c) = coreStep (coreOf s) c := by
  unfold arbitrateStep coreStep writeCore coreOf
  split_ifs <;> first | rfl | tauto

lemma coreOf_fuseAll (s : FuseState) (l : List FuseCand) :
    coreOf (fuseAll s l) = l.foldl coreStep (coreOf s) := by
  induction l generalizing s with
  | nil => rfl
  | cons c cs ih =>
    show coreOf (fuseAll (arbitrateStep s c) cs) = cs.foldl coreStep (coreStep (coreOf s) c)
    rw [ih, coreOf_arbitrateStep]

/-- C1 (amended): arbitration over candidates whose composite priorities
content_score + match_score·10 are pairwise distinct is order-independent in
the materialized spots_budget, spots_tax and best_source_score.  (With merely
distinct (content, match) pairs the composites can tie and the first-processed
candidate wins, see the counterexample.) -/
theorem arbitrate_order_independent (init : FuseState) (l l' : List FuseCand)
    (hperm : l.Perm l')
    (hvalid : ∀ c ∈ l, 0.65 < c.matchScore)
    (hdist : l.Pairwise fun a b => totalScore a ≠ totalScore b) :
    (fuseAll init l).spots_budget = (fuseAll init l').spots_budget ∧
    (fuseAll init l).spots_tax = (fuseAll init l').spots_tax ∧
    (fuseAll init l).best = (fuseAll init l').best := by
  have hcore : coreOf (fuseAll init l) = coreOf (fuseAll init l') := by
    rw [coreOf_fuseAll, coreOf_fuseAll]
    refine hperm.foldl_eq' ?_ (coreOf init)
    intro x hx y hy z
    by_cases hxy : x = y
    · subst hxy; rfl
    · exact coreStep_comm (hdist.forall (fun _ _ h => h.symm) hx hy hxy) z
  exact ⟨congrArg CoreState.spots_budget hcore, congrArg CoreState.spots_tax hcore,
    congrArg CoreState.best hcore⟩

/-- Counterexample to C1 as stated: two valid candidates with distinct
(content score, match score) pairs but equal composite priorities
(10 + 0.8·10 = 11 + 0.7·10 = 18): the first-processed candidate wins, so the
two processing orders materialize different spots_budget values (while the
final best_source_score agrees). -/
theorem arbitrate_order_dependent_counterexample :
    (candTieA.contentScore, candTieA.matchScore)
      ≠ (candTieB.contentScore, candTieB.matchScore) ∧
    0.65 < candTieA.matchScore ∧ 0.65 < candTieB.matchScore ∧
    totalScore candTieA = totalScore candTieB ∧
    (fuseAll fuseInit [candTieA, candTieB]).spots_budget = some 100 ∧
    (fuseAll fuseInit [candTieB, candTieA]).spots_budget = some 200 ∧
    (fuseAll fuseInit [candTieA, candTieB]).spots_budget
      ≠ (fuseAll fuseInit [candTieB, candTieA]).spots_budget := by
  have hA : (fuseAll fuseInit [candTieA, candTieB]).spots_budget = some 100 := by
    norm_num [fuseAll, List.foldl_cons, List.foldl_nil, arbitrateStep, totalScore,
      candTieA, candTieB, fuseInit]
  have hB : (fuseAll fuseInit [candTieB, candTieA]).spots_budget = some 200 := by
    norm_num [fuseAll, List.foldl_cons, List.foldl_nil, arbitrateStep, totalScore,
      candTieA, candTieB, fuseInit]
  refine ⟨?_, by norm_num [candTieA], by norm_num [candTieB],
    by norm_num [totalScore, candTieA, candTieB], hA, hB, ?_⟩
  · simp only [candTieA, candTieB, Prod.mk.injEq, not_and]
    intro h
    norm_num at h
  · rw [hA, hB]
    simp

/-- Witness for C1: two candidates with distinct composites (29 and 12) fuse
to the same materialized values in either order. -/
theorem arbitrate_order_independent_witness :
    (fuseAll fuseInit [candW1, candW2]).spots_budget
      = (fuseAll fuseInit [candW2, candW1]).spots_budget ∧
    (fuseAll fuseInit [candW1, candW2]).spots_tax
      = (fuseAll fuseInit [candW2, candW1]).spots_tax ∧
    (fuseAll fuseInit [candW1, candW2]).best = (fuseAll fuseInit [candW2, candW1]).best :=
  arbitrate_order_independent fuseInit [candW1, candW2] [candW2, candW1]
    (List.Perm.swap candW2 candW1 [])
    (by
      intro c hc
      rcases List.mem_cons.mp hc with rfl | hc
      · norm_num [candW1]
      · rcases List.mem_cons.mp hc with rfl | hc
        · norm_num [candW2]
        · simp at hc)
    (by
      refine List.Pairwise.cons ?_ (List.Pairwise.cons ?_ List.Pairwise.nil)
      · intro b hb
        rcases List.mem_cons.mp hb with rfl | hb
        · norm_num [totalScore, candW1, candW2]
        · simp at hb
      · intro b hb
        simp at hb)

/-- C2: for a match with score above 0.65, the ARBITRATE step appends exactly
one entry to the evidence ledger; the materialized spots and metadata fields
are overwritten when the composite priority strictly exceeds the stored best
source score, and are all left unchanged otherwise (while the entry is still
appended). -/
theorem arbitrate_step_frame (s : FuseState) (c : FuseCand) (h : 0.65 < c.matchScore) :
    (arbitrateStep s c).evidence = s.evidence ++ [evidenceEntry c] ∧
    (arbitrateStep s c).evidence.length = s.evidence.length + 1 ∧
    (totalScore c > s.best →
      (arbitrateStep s c).spots_budget = c.budget ∧
      (arbitrateStep s c).spots_tax = c.tax ∧
      (arbitrateStep s c).best = totalScore c ∧
      (arbitrateStep s c).matchStatus = c.status ∧
      (arbitrateStep s c).pdfSource = c.sourceUrl ∧
      (arbitrateStep s c).pdfMatchName = c.matchName ∧
      (arbitrateStep s c).pdfMatchScore = c.matchScore ∧
      (arbitrateStep s c).accuracy = calcLikelihood c.matchScore (sourcePrio c.contentScore)) ∧
    (¬ totalScore c > s.best →
      (arbitrateStep s c).spots_budget = s.spots_budget ∧
      (arbitrateStep s c).spots_tax = s.spots_tax ∧
      (arbitrateStep s c).best = s.best ∧
      (arbitrateStep s c).matchStatus = s.matchStatus ∧
      (arbitrateStep s c).pdfSource = s.pdfSource ∧
      (arbitrateStep s c).pdfMatchName = s.pdfMatchName ∧
      (arbitrateStep s c).pdfMatchScore = s.pdfMatchScore ∧
      (arbitrateStep s c).accuracy = s.accuracy) := by
  unfold arbitrateStep
  rw [if_pos h]
  by_cases hw : totalScore c > s.best
  · rw [if_pos hw]
    exact ⟨rfl, by simp, fun _ => ⟨rfl, rfl, rfl, rfl, rfl, rfl, rfl, rfl⟩,
      fun hnw => absurd hw hnw⟩
  · rw [if_neg hw]
    exact ⟨rfl, by simp, fun hw2 => absurd hw2 hw,
      fun _ => ⟨rfl, rfl, rfl, rfl, rfl, rfl, rfl, rfl⟩⟩

/-- Witness for C2: a concrete winning candidate appends its entry and
overwrites the seat counts. -/
theorem arbitrate_step_frame_witness :
    (arbitrateStep fuseInit candC2).evidence = fuseInit.evidence ++ [evidenceEntry candC2] ∧
    (arbitrateStep fuseInit candC2).spots_budget = candC2.budget := by
  have h := arbitrate_step_frame fuseInit candC2 (by norm_num [candC2])
  exact ⟨h.1, (h.2.2.1 (by norm_num [totalScore, candC2, fuseInit])).1⟩

/-- C7 (amended): with no HTML records and a non-empty validated row list,
`_fuse_data` synthesizes exactly one record per row; the program id is the
hash of the slug and the normalized row name (hence deterministic: equal names
give equal ids); the level of the record is the normalization of the row level
when one was detected, and "Unknown" when the parser stored None (the "Master"
`.get` default applies only to rows lacking the level key, which the parser
never produces). -/
theorem pdf_only_synthesis_spec (sha : String → String) (runId : String) (defaultYear : Int)
    (slug pdfUrl facultyUid : String) (programs : List HtmlProg) (rows : List PdfRow)
    (hprogs : programs = []) (hrows : rows ≠ []) :
    pdfOnlySynthesis sha runId defaultYear slug pdfUrl facultyUid programs rows
      = some (rows.map (synthesizeProgram sha runId defaultYear slug pdfUrl facultyUid)) ∧
    (rows.map (synthesizeProgram sha runId defaultYear slug pdfUrl facultyUid)).length
      = rows.length ∧
    (∀ row ∈ rows,
      (synthesizeProgram sha runId defaultYear slug pdfUrl facultyUid row).program_id
        = sha (slug ++ ("|") ++ mNormalize row.program_name) ∧
      (∀ t, row.level = some t →
        (synthesizeProgram sha runId defaultYear slug pdfUrl facultyUid row).level
          = normalizeLevel t) ∧
      (row.level = none →
        (synthesizeProgram sha runId defaultYear slug pdfUrl facultyUid row).level
          = ("Unknown"))) ∧
    (∀ r1 r2 : PdfRow, r1.program_name = r2.program_name →
      (synthesizeProgram sha runId defaultYear slug pdfUrl facultyUid r1).program_id
        = (synthesizeProgram sha runId defaultYear slug pdfUrl facultyUid r2).program_id) := by
  refine ⟨?_, List.length_map _ _, ?_, ?_⟩
  · rw [pdfOnlySynthesis, if_pos ⟨hprogs, hrows⟩]
  · intro row _
    refine ⟨rfl, ?_, ?_⟩
    · intro t ht
      simp [synthesizeProgram, normalizeLevelOpt, ht]
    · intro ht
      simp [synthesizeProgram, normalizeLevelOpt, ht]
  · intro r1 r2 hname
    simp [synthesizeProgram, generateProgramId, hname]

/-- Counterexample to C7 as stated: a validated row whose level the parser
left undetected (stored None) synthesizes a record with level "Unknown", not
the claimed default "Master". -/
theorem pdf_only_synthesis_counterexample :
    rowNoLevel.level = none ∧
    (synthesizeProgram shaId ("run1") 2025 ("agro") ("u.pdf") ("fuid") rowNoLevel).level
      = ("Unknown") ∧
    (synthesizeProgram shaId ("run1") 2025 ("agro") ("u.pdf") ("fuid") rowNoLevel).level
      ≠ ("Master") :=
  ⟨rfl, rfl, by decide⟩

/-- Witness for C7: the synthesis branch fires on a concrete empty-programs
faculty with one row and produces the deterministic id. -/
theorem pdf_only_synthesis_witness :
    pdfOnlySynthesis shaId ("run1") 2025 ("agro") ("u.pdf") ("fuid") [] [rowNoLevel]
      = some [synthesizeProgram shaId ("run1") 2025 ("agro") ("u.pdf") ("fuid") rowNoLevel] ∧
    (synthesizeProgram shaId ("run1") 2025 ("agro") ("u.pdf") ("fuid") rowNoLevel).program_id
      = shaId (("agro") ++ ("|") ++ mNormalize rowNoLevel.program_name) := by
  have h := pdf_only_synthesis_spec shaId ("run1") 2025 ("agro") ("u.pdf") ("fuid")
    [] [rowNoLevel] rfl (by simp)
  exact ⟨by simpa using h.1, (h.2.2.1 rowNoLevel (by simp)).1⟩

lemma mem_candidateList {ts pratio : String → String → ℚ} {html : HtmlProg}
    {rows : List PdfRow} {p : ℚ × PdfRow} :
    p ∈ candidateList ts pratio html rows ↔
      p.2 ∈ rows ∧ p.1 = calcMatchScore ts pratio html p.2 ∧ 0.01 < p.1 := by
  unfold candidateList
  rw [List.mem_filterMap]
  constructor
  · rintro ⟨a, ha, hf⟩
    by_cases hc : calcMatchScore ts pratio html a > 0.01
    · rw [if_pos hc] at hf
      rw [Option.some_inj] at hf
      subst hf
      exact ⟨ha, rfl, hc⟩
    · rw [if_neg hc] at hf
      cases hf
  · rintro ⟨hmem, hs, hgt⟩
    refine ⟨p.2, hmem, ?_⟩
    rw [if_pos (by rw [← hs]; exact hgt), ← hs]

lemma sortedCandidates_perm (ts pratio : String → String → ℚ) (html : HtmlProg)
    (rows : List PdfRow) :
    (sortedCandidates ts pratio html rows).Perm (candidateList ts pratio html rows) :=
  List.perm_insertionSort candDesc (candidateList ts pratio html rows)

lemma sortedCandidates_sorted (ts pratio : String → String → ℚ) (html : HtmlProg)
    (rows : List PdfRow) :
    (sortedCandidates ts pratio html rows).Sorted candDesc :=
  List.sorted_insertionSort candDesc (candidateList ts pratio html rows)

/-- C6 (amended): `_find_best_match` returns no_match (score 0, match None)
exactly when no row scores above the 0.01 floor; otherwise it returns a row of
maximal score with that score; and on the descending-sorted candidate list the
status is low_confidence whenever the top score is below 0.5 (this check runs
last and overrides), ambiguous when the top score is at least 0.5 and the gap
to the runner-up is below 0.15, and match otherwise. -/
theorem find_best_match_spec (ts pratio : String → String → ℚ) (html : HtmlProg)
    (rows : List PdfRow) :
    ((findBestMatch ts pratio html rows).status = ("no_match") ↔
      ∀ r ∈ rows, ¬ 0.01 < calcMatchScore ts pratio html r) ∧
    ((findBestMatch ts pratio html rows).status = ("no_match") →
      (findBestMatch ts pratio html rows).matched = none ∧
      (findBestMatch ts pratio html rows).score = 0) ∧
    ((∃ r ∈ rows, 0.01 < calcMatchScore ts pratio html r) →
      ∃ r ∈ rows, (findBestMatch ts pratio html rows).matched = some r ∧
        (findBestMatch ts pratio html rows).score = calcMatchScore ts pratio html r ∧
        ∀ r2 ∈ rows, calcMatchScore ts pratio html r2 ≤ calcMatchScore ts pratio html r) ∧
    (∀ best second rest2,
      sortedCandidates ts pratio html rows = best :: second :: rest2 →
      (findBestMatch ts pratio html rows).status =
        (if best.1 < 0.5 then ("low_confidence")
         else if best.1 - second.1 < 0.15 then ("ambiguous") else ("match"))) ∧
    (∀ best, sortedCandidates ts pratio html rows = [best] →
      (findBestMatch ts pratio html rows).status =
        (if best.1 < 0.5 then ("low_confidence") else ("match"))) := by
  cases hS : sortedCandidates ts pratio html rows with
  | nil =>
    have hcand : candidateList ts pratio html rows = [] := by
      have hperm := sortedCandidates_perm ts pratio html rows
      rw [hS] at hperm
      exact hperm.symm.eq_nil
    have hall : ∀ r ∈ rows, ¬ 0.01 < calcMatchScore ts pratio html r := by
      intro r hr hgt
      have hmem : (calcMatchScore ts pratio html r, r) ∈ candidateList ts pratio html rows :=
        mem_candidateList.mpr ⟨hr, rfl, hgt⟩
      rw [hcand] at hmem
      simp at hmem
    refine ⟨⟨fun _ => hall, fun _ => ?_⟩, fun _ => ?_, fun he => ?_, fun b s r2 he => ?_,
      fun b he => ?_⟩
    · simp [findBestMatch, hS]
    · simp [findBestMatch, hS]
    · obtain ⟨r, hr, hgt⟩ := he
      exact absurd hgt (hall r hr)
    · simp at he
    · simp at he
  | cons best rest =>
    have hperm := sortedCandidates_perm ts pratio html rows
    rw [hS] at hperm
    have hbestmem : best ∈ candidateList ts pratio html rows :=
      hperm.subset (List.mem_cons_self best rest)
    obtain ⟨hbrow, hbscore, hbgt⟩ := mem_candidateList.mp hbestmem
    have hsorted := sortedCandidates_sorted ts pratio html rows
    rw [hS] at hsorted
    have hrel := List.rel_of_sorted_cons hsorted
    have hmax : ∀ r2 ∈ rows, calcMatchScore ts pratio html r2 ≤ best.1 := by
      intro r2 hr2
      by_cases hc : 0.01 < calcMatchScore ts pratio html r2
      · have hmem : (calcMatchScore ts pratio html r2, r2)
            ∈ candidateList ts pratio html rows := mem_candidateList.mpr ⟨hr2, rfl, hc⟩
        have hmem2 := hperm.symm.subset hmem
        rcases List.mem_cons.mp hmem2 with heq | hmem3
        · rw [← heq]
        · exact hrel _ hmem3
      · push_neg at hc
        linarith
    have hst : (findBestMatch ts pratio html rows).status =
        (if best.1 < 0.5 then ("low_confidence")
         else match rest with
           | [] => ("match")
           | second :: _ =>
             if best.1 - second.1 < 0.15 then ("ambiguous") else ("match")) := by
      cases rest with
      | nil => simp only [findBestMatch, hS]
      | cons second rest2 => simp only [findBestMatch, hS]
    have hstatus : ¬ (findBestMatch ts pratio html rows).status = ("no_match") := by
      intro h
      rw [hst] at h
      split at h
      · exact absurd h (by decide)
      · split at h
        · exact absurd h (by decide)
        · split at h <;> exact absurd h (by decide)
    refine ⟨⟨fun h => absurd h hstatus, fun hall => ?_⟩,
      fun h => absurd h hstatus, fun _ => ?_, fun b s r2 he => ?_, fun b he => ?_⟩
    · exact absurd (hbscore ▸ hbgt) (hall best.2 hbrow)
    · refine ⟨best.2, hbrow, ?_, ?_, ?_⟩
      · simp only [findBestMatch, hS]
      · simp only [findBestMatch, hS]
        exact hbscore
      · intro r2 hr2
        rw [← hbscore]
        exact hmax r2 hr2
    · injection he with h1 h2
      subst h1
      subst h2
      rw [hst]
    · injection he with h1 h2
      subst h1
      subst h2
      rw [hst]

/-- Counterexample to C6 as stated: two candidate rows scoring 0.45 and 0.40
(gap 0.05 < 0.15) with the top below 0.5: the low-confidence check runs after
the ambiguity check and overwrites it, so the returned status is
"low_confidence", not the claimed "ambiguous". -/
theorem find_best_match_counterexample :
    calcMatchScore tsCex prCex htmlCex rowCexA = 0.45 ∧
    calcMatchScore tsCex prCex htmlCex rowCexB = 0.4 ∧
    ((0.45 : ℚ) - 0.4 < 0.15) ∧
    (findBestMatch tsCex prCex htmlCex [rowCexA, rowCexB]).status = ("low_confidence") ∧
    (findBestMatch tsCex prCex htmlCex [rowCexA, rowCexB]).status ≠ ("ambiguous") := by
  have hnA : expandAbbrev (mNormalize ("aa")) = ("aa") := by decide
  have hnB : expandAbbrev (mNormalize ("bb")) = ("bb") := by decide
  have hnH : expandAbbrev (mNormalize ("Programul X")) = ("programul x"):= by decide
  have hA : calcMatchScore tsCex prCex htmlCex rowCexA = 0.45 := by
    simp +decide [calcMatchScore, htmlCex, rowCexA, tsCex, prCex, hnH, hnA]
    norm_num [max_def, min_def]
  have hB : calcMatchScore tsCex prCex htmlCex rowCexB = 0.4 := by
    simp +decide [calcMatchScore, htmlCex, rowCexB, tsCex, prCex, hnH, hnB]
    norm_num [max_def, min_def]
  have hcand : candidateList tsCex prCex htmlCex [rowCexA, rowCexB]
      = [(0.45, rowCexA), (0.4, rowCexB)] := by
    unfold candidateList
    rw [List.filterMap_cons, List.filterMap_cons, List.filterMap_nil]
    rw [hA, hB]
    rw [if_pos (by norm_num), if_pos (by norm_num)]
  have hsorted : sortedCandidates tsCex prCex htmlCex [rowCexA, rowCexB]
      = [(0.45, rowCexA), (0.4, rowCexB)] := by
    unfold sortedCandidates
    rw [hcand]
    norm_num [List.insertionSort, List.orderedInsert, candDesc]
  have hfb : (findBestMatch tsCex prCex htmlCex [rowCexA, rowCexB]).status
      = ("low_confidence") := by
    simp only [findBestMatch, hsorted]
    norm_num
  exact ⟨hA, hB, by norm_num, hfb, by rw [hfb]; decide⟩

/-- Witness for C6: the amended characterization instantiated at an empty row
list yields no_match. -/
theorem find_best_match_spec_witness :
    (findBestMatch tsCex prCex htmlCex []).status = ("no_match") := by
  refine (find_best_match_spec tsCex prCex htmlCex []).1.mpr ?_
  intro r hr
  simp at hr

/-- Witness for C10: the failure path at a concrete admission year. -/
theorem evaluate_content_failure_not_skipped_witness :
    evaluateContent 2025 none = defaultMetrics ∧
    ¬ skipsCandidate (evaluateContent 2025 none) :=
  ⟨(evaluate_content_failure_not_skipped 2025).1,
   (evaluate_content_failure_not_skipped 2025).2.2⟩

end UnivScraping
